/-
Verification of the removemark repository (littlegoat-tech/removemark).

This file gives a shallow embedding, in Lean 4, of the pure computational
content of the repository's TypeScript sources:

  * src/lib/image-processing.ts   — tensor construction, output conversion,
                                    the model-loading singleton and the
                                    worker message handler;
  * src/sections/hero/hero.tsx    — the mask-editing history stack and the
                                    brush-stroke interpolation;
  * src/lib/seo.ts                — the SEO head-tag generators.

JavaScript numbers are modelled as rationals (ℚ) with the exact arithmetic
the expressions denote; byte arrays (Uint8ClampedArray / Float32Array) are
modelled as total functions from indices; browser-only effects (canvas
rasterisation, IndexedDB, fetch, ONNX inference) are modelled as explicit
oracle parameters or are noted where they sit outside the embedding.
-/
import Mathlib

namespace Removemark

/-! ## Mask history stack (src/sections/hero/hero.tsx)

The mask selector keeps an undo/redo history of full mask snapshots:
`history : ImageData[]` together with a cursor `historyIndex : number`
(initially `-1`).  We model a snapshot abstractly by a type `α`. -/

structure HistState (α : Type) where
  history : List α
  index : ℤ
  deriving DecidableEq, Repr

/-- The history state before the mount effect runs: `useState<ImageData[]>([])`
and `useState(-1)` (hero.tsx lines 243-244). -/
def emptyHist (α : Type) : HistState α := { history := [], index := -1 }

/-- `saveToHistory` (hero.tsx lines 347-367) and `saveHistoryState`
(lines 800-816): truncate the redo tail with `slice(0, currentIndex + 1)`,
push the new snapshot, drop the oldest entry (`shift()`) when the length
exceeds 50, and set the cursor to `Math.min(newHistory.length - 1, 49)`. -/
def commitHistory {α : Type} (st : HistState α) (snap : α) : HistState α :=
  let newHistory := st.history.take (st.index + 1).toNat ++ [snap]
  let newHistory := if 50 < newHistory.length then newHistory.tail else newHistory
  { history := newHistory, index := min ((newHistory.length : ℤ) - 1) 49 }

/-- `undo` (hero.tsx lines 369-387): a no-op when `currentIndex <= 0`;
otherwise restore `history[currentIndex - 1]` (when present) and move the
cursor down. -/
def undoHistory {α : Type} (st : HistState α) : HistState α :=
  if st.index ≤ 0 then st
  else
    match st.history.get? (st.index - 1).toNat with
    | some _ => { st with index := st.index - 1 }
    | none => st

/-- `redo` (hero.tsx lines 389-408): a no-op when
`currentIndex >= currentHistory.length - 1`; otherwise restore
`history[currentIndex + 1]` (when present) and move the cursor up. -/
def redoHistory {α : Type} (st : HistState α) : HistState α :=
  if (st.history.length : ℤ) - 1 ≤ st.index then st
  else
    match st.history.get? (st.index + 1).toNat with
    | some _ => { st with index := st.index + 1 }
    | none => st

/-- The history state installed by the WatermarkSelector mount effect
(hero.tsx lines 580-633): `[initialImageData]` with cursor `0`, or, when an
initial preset is given, `[initialImageData, presetImageData]` with
cursor `1`. -/
def mountHist {α : Type} (initial : α) (preset : Option α) : HistState α :=
  match preset with
  | none => { history := [initial], index := 0 }
  | some p => { history := [initial, p], index := 1 }

/-- Committing a whole sequence of stroke snapshots, oldest first. -/
def commitAll {α : Type} (st : HistState α) (snaps : List α) : HistState α :=
  snaps.foldl commitHistory st

/-- The closed form of a history built by committing the snapshot list `L`
at the tail: the last (at most) 50 snapshots, cursor on the last entry. -/
def histOf {α : Type} (L : List α) : HistState α :=
  { history := L.drop (L.length - 50), index := min (L.length : ℤ) 50 - 1 }

/-- The history invariant: at least one snapshot, at most 50, and the
cursor points at a stored snapshot. -/
def validHist {α : Type} (st : HistState α) : Prop :=
  1 ≤ st.history.length ∧ st.history.length ≤ 50 ∧
    0 ≤ st.index ∧ st.index ≤ (st.history.length : ℤ) - 1

theorem histOf_history_length {α : Type} (L : List α) :
    (histOf L).history.length = min 50 L.length := by
  simp [histOf]
  omega

theorem commitHistory_histOf {α : Type} (L : List α) (x : α) :
    commitHistory (histOf L) x = histOf (L ++ [x]) := by
  have hlen : (histOf L).history.length = min 50 L.length := histOf_history_length L
  unfold commitHistory
  rcases le_or_lt L.length 49 with hle | hgt
  · have hdrop : L.length - 50 = 0 := by omega
    have htake : ((min (L.length : ℤ) 50 - 1 + 1).toNat) = L.length := by
      have : min (L.length : ℤ) 50 = (L.length : ℤ) := by
        rw [min_eq_left]; exact_mod_cast Nat.le_of_lt (by omega)
      omega
    simp only [histOf, hdrop, List.drop_zero, htake, List.take_length]
    have hlen2 : ¬ 50 < (L ++ [x]).length := by
      simp [List.length_append]; omega
    simp only [if_neg hlen2]
    have hd2 : (L ++ [x]).length - 50 = 0 := by simp [List.length_append]; omega
    rw [hd2]
    simp [List.length_append]
    omega
  · -- L has at least 50 entries: the stack is full, the oldest is evicted.
    have h50 : (50 : ℕ) ≤ L.length := by omega
    have hdlen : (L.drop (L.length - 50)).length = 50 := by simp; omega
    have hmin : min (L.length : ℤ) 50 = 50 := by
      rw [min_eq_right]; exact_mod_cast h50
    have htake : ((min (L.length : ℤ) 50 - 1 + 1).toNat) = 50 := by rw [hmin]; rfl
    simp only [histOf, htake]
    rw [List.take_of_length_le hdlen.le]
    have hlen2 : 50 < (L.drop (L.length - 50) ++ [x]).length := by
      simp [hdlen]
    rw [if_pos hlen2]
    have htail : (L.drop (L.length - 50) ++ [x]).tail
        = (L ++ [x]).drop ((L ++ [x]).length - 50) := by
      have h1 : (L.drop (L.length - 50) ++ [x]).tail
          = (L.drop (L.length - 50)).tail ++ [x] := by
        apply List.tail_append_of_ne_nil
        intro hnil
        have hl := congrArg List.length hnil
        rw [hdlen] at hl
        simp at hl
      rw [h1, ← List.drop_one, List.drop_drop]
      have h4 : L.length - 50 + 1 = L.length - 49 := by omega
      rw [h4]
      have h2 : (L ++ [x]).length - 50 = L.length - 49 := by
        simp [List.length_append]
      have h3 : L.length - 49 ≤ L.length := by omega
      rw [h2, List.drop_append_of_le_length h3]
    rw [htail]
    congr 1
    have hlt : (((L ++ [x]).drop ((L ++ [x]).length - 50)).length : ℤ) = 50 := by
      simp [List.length_append]
      omega
    rw [hlt]
    have hmin2 : min ((L ++ [x]).length : ℤ) 50 = 50 := by
      rw [min_eq_right]
      simp [List.length_append]
      omega
    rw [hmin2]
    norm_num

theorem commitAll_histOf {α : Type} (snaps : List α) (L : List α) :
    commitAll (histOf L) snaps = histOf (L ++ snaps) := by
  induction snaps generalizing L with
  | nil => simp [commitAll]
  | cons x xs ih =>
    show commitAll (commitHistory (histOf L) x) xs = _
    rw [commitHistory_histOf, ih, List.append_assoc]
    simp

theorem commitAll_empty {α : Type} (snaps : List α) :
    commitAll (emptyHist α) snaps = histOf snaps := by
  have h0 : emptyHist α = histOf ([] : List α) := by
    simp [emptyHist, histOf]
  rw [h0, commitAll_histOf, List.nil_append]

theorem commitHistory_fields {α : Type} (st : HistState α) (snap : α)
    (hv : validHist st) :
    (commitHistory st snap).history.length = min ((st.index + 1).toNat + 1) 50 ∧
      (commitHistory st snap).index = ((commitHistory st snap).history.length : ℤ) - 1 := by
  obtain ⟨h1, h2, h3, h4⟩ := hv
  have htoNat : (st.index + 1).toNat ≤ st.history.length := by omega
  have hlen1 : (st.history.take (st.index + 1).toNat ++ [snap]).length
      = (st.index + 1).toNat + 1 := by
    simp [List.length_take]
    omega
  by_cases hc : 50 < (st.history.take (st.index + 1).toNat ++ [snap]).length
  · have hc' : 50 < (st.index + 1).toNat + 1 := hlen1 ▸ hc
    have hlen2 : (st.history.take (st.index + 1).toNat ++ [snap]).tail.length
        = (st.index + 1).toNat := by
      rw [List.length_tail, hlen1]
      omega
    constructor
    · simp only [commitHistory, if_pos hc, hlen2]
      omega
    · simp only [commitHistory, if_pos hc, hlen2]
      omega
  · have hc' : ¬ 50 < (st.index + 1).toNat + 1 := hlen1 ▸ hc
    constructor
    · simp only [commitHistory, hlen1, if_neg hc']
      omega
    · simp only [commitHistory, hlen1, if_neg hc']
      omega

theorem validHist_commitHistory {α : Type} (st : HistState α) (snap : α)
    (hv : validHist st) : validHist (commitHistory st snap) := by
  obtain ⟨hlen, hidx⟩ := commitHistory_fields st snap hv
  obtain ⟨h1, h2, h3, h4⟩ := hv
  refine ⟨?_, ?_, ?_, ?_⟩ <;> (try rw [hidx]) <;> rw [hlen] <;> omega

theorem validHist_undoHistory {α : Type} (st : HistState α)
    (hv : validHist st) : validHist (undoHistory st) := by
  obtain ⟨h1, h2, h3, h4⟩ := hv
  unfold undoHistory
  by_cases hc : st.index ≤ 0
  · rw [if_pos hc]; exact ⟨h1, h2, h3, h4⟩
  · rw [if_neg hc]
    cases hget : st.history.get? (st.index - 1).toNat with
    | none => exact ⟨h1, h2, h3, h4⟩
    | some a =>
      refine ⟨h1, h2, ?_, ?_⟩
      · show (0 : ℤ) ≤ st.index - 1
        omega
      · show st.index - 1 ≤ (st.history.length : ℤ) - 1
        omega

theorem validHist_redoHistory {α : Type} (st : HistState α)
    (hv : validHist st) : validHist (redoHistory st) := by
  obtain ⟨h1, h2, h3, h4⟩ := hv
  unfold redoHistory
  by_cases hc : (st.history.length : ℤ) - 1 ≤ st.index
  · rw [if_pos hc]; exact ⟨h1, h2, h3, h4⟩
  · rw [if_neg hc]
    cases hget : st.history.get? (st.index + 1).toNat with
    | none => exact ⟨h1, h2, h3, h4⟩
    | some a =>
      refine ⟨h1, h2, ?_, ?_⟩
      · show (0 : ℤ) ≤ st.index + 1
        omega
      · show st.index + 1 ≤ (st.history.length : ℤ) - 1
        omega

theorem validHist_mountHist {α : Type} (initial : α) (preset : Option α) :
    validHist (mountHist initial preset) := by
  cases preset <;> simp [mountHist, validHist]

/-- C6: the mask history is a bounded snapshot stack of capacity 50 — a
commit truncates past the cursor, appends, and evicts the oldest entry on
overflow — so any 60 stroke commits starting from the empty history leave
exactly 50 entries, the first 10 snapshots evicted, with the cursor on the
last entry (index 49). -/
theorem history_sixty_commits {α : Type} (snaps : List α) (h : snaps.length = 60) :
    (commitAll (emptyHist α) snaps).history.length = 50 ∧
      (commitAll (emptyHist α) snaps).history = snaps.drop 10 ∧
      (commitAll (emptyHist α) snaps).index = 49 ∧
      (commitAll (emptyHist α) snaps).index
        = ((commitAll (emptyHist α) snaps).history.length : ℤ) - 1 := by
  rw [commitAll_empty]
  refine ⟨?_, ?_, ?_, ?_⟩
  · rw [histOf_history_length, h]
    omega
  · simp only [histOf, h]
  · simp only [histOf, h]
    omega
  · rw [histOf_history_length]
    simp only [histOf, h]
    omega

/-- Witness for C6 at a concrete sequence of 60 distinct snapshots. -/
theorem history_sixty_commits_witness :
    (List.range 60).length = 60 ∧
      ((commitAll (emptyHist ℕ) (List.range 60)).history.length = 50 ∧
        (commitAll (emptyHist ℕ) (List.range 60)).history = (List.range 60).drop 10 ∧
        (commitAll (emptyHist ℕ) (List.range 60)).index = 49 ∧
        (commitAll (emptyHist ℕ) (List.range 60)).index
          = ((commitAll (emptyHist ℕ) (List.range 60)).history.length : ℤ) - 1) :=
  ⟨List.length_range 60, history_sixty_commits (List.range 60) (List.length_range 60)⟩

/-- C10: after the mount effect and after every history operation the
invariant `1 ≤ history.length ≤ 50 ∧ 0 ≤ historyIndex ≤ history.length - 1`
holds, and `undo` at index 0 / `redo` at the last index are no-ops. -/
theorem history_invariant {α : Type} (st : HistState α) (snap initial : α)
    (preset : Option α) (hv : validHist st) :
    validHist (mountHist initial preset) ∧
      validHist (commitHistory st snap) ∧
      validHist (undoHistory st) ∧
      validHist (redoHistory st) ∧
      (st.index = 0 → undoHistory st = st) ∧
      (st.index = (st.history.length : ℤ) - 1 → redoHistory st = st) :=
  ⟨validHist_mountHist initial preset,
   validHist_commitHistory st snap hv,
   validHist_undoHistory st hv,
   validHist_redoHistory st hv,
   fun h0 => by simp [undoHistory, h0],
   fun hl => by simp [redoHistory, hl]⟩

/-- Witness for C10 at a concrete valid history state. -/
theorem history_invariant_witness :
    validHist ({ history := [0], index := 0 } : HistState ℕ) ∧
      (validHist (mountHist (5 : ℕ) (some 6)) ∧
        validHist (commitHistory ({ history := [0], index := 0 } : HistState ℕ) 1) ∧
        validHist (undoHistory ({ history := [0], index := 0 } : HistState ℕ)) ∧
        validHist (redoHistory ({ history := [0], index := 0 } : HistState ℕ)) ∧
        (({ history := [0], index := 0 } : HistState ℕ).index = 0 →
          undoHistory ({ history := [0], index := 0 } : HistState ℕ)
            = { history := [0], index := 0 }) ∧
        (({ history := [0], index := 0 } : HistState ℕ).index
            = (({ history := [0], index := 0 } : HistState ℕ).history.length : ℤ) - 1 →
          redoHistory ({ history := [0], index := 0 } : HistState ℕ)
            = { history := [0], index := 0 })) :=
  ⟨by constructor <;> simp [validHist],
   history_invariant { history := [0], index := 0 } 1 5 (some 6)
     (by constructor <;> simp [validHist])⟩

/-! ## Tensor pipeline (src/lib/image-processing.ts)

Pixel buffers (`Uint8ClampedArray`, RGBA layout) are modelled as total
functions `ℕ → ℕ` from byte index to byte value; `Float32Array` contents
as total functions `ℕ → ℚ`. -/

def INPUT_SIZE : ℕ := 512

/-- An ONNX tensor as used by the worker: its `dims` and its `Float32Array`
data (values as exact rationals). -/
structure TensorQ where
  dims : List ℕ
  data : ℕ → ℚ

/-- A browser `ImageData`: width, height, and RGBA bytes. -/
structure ImageDataM where
  width : ℕ
  height : ℕ
  data : ℕ → ℤ

/-- One iteration of the pixel loop of `createMaskedInputTensors`
(image-processing.ts lines 488-503): read the rescaled mask's red channel,
threshold it at 127, and either hard-zero all three image channels (mask
value 1.0) or write the normalized source channels (mask value 0.0).
The accumulator is the pair (imageTensorData, maskTensorData). -/
def maskedTensorStep (img msk : ℕ → ℕ) (size : ℕ)
    (acc : (ℕ → ℚ) × (ℕ → ℚ)) (i : ℕ) : (ℕ → ℚ) × (ℕ → ℚ) :=
  let maskVal : ℚ := if 127 < msk (i * 4) then 1 else 0
  let maskT := Function.update acc.2 i maskVal
  let imageT :=
    if maskVal = 1 then
      Function.update (Function.update (Function.update acc.1
        i 0) (i + size * size) 0) (i + 2 * (size * size)) 0
    else
      Function.update (Function.update (Function.update acc.1
        i ((img (i * 4) : ℚ) / 255))
        (i + size * size) ((img (i * 4 + 1) : ℚ) / 255))
        (i + 2 * (size * size)) ((img (i * 4 + 2) : ℚ) / 255)
  (imageT, maskT)

/-- The whole pixel loop of `createMaskedInputTensors`, starting from the
zero-initialised `Float32Array`s. -/
def maskedTensorLoop (img msk : ℕ → ℕ) (size : ℕ) : (ℕ → ℚ) × (ℕ → ℚ) :=
  (List.range (size * size)).foldl (maskedTensorStep img msk size)
    (fun _ => 0, fun _ => 0)

/-- `createMaskedInputTensors` (image-processing.ts lines 457-516): the
image tensor of dims [1,3,size,size] and the mask tensor of dims
[1,1,size,size] built by the pixel loop.  The canvas rescaling of the
inputs to size×size happens before the loop and is outside the embedding:
`img` and `msk` here are the already-rescaled RGBA buffers
(`scaledImageData.data` / `scaledMaskData.data`). -/
def createMaskedInputTensors (img msk : ℕ → ℕ) (size : ℕ) : TensorQ × TensorQ :=
  let r := maskedTensorLoop img msk size
  ({ dims := [1, 3, size, size], data := r.1 },
   { dims := [1, 1, size, size], data := r.2 })

/-- Closed form of the mask tensor entry at pixel `i`. -/
def maskTensorAt (msk : ℕ → ℕ) (i : ℕ) : ℚ :=
  if 127 < msk (i * 4) then 1 else 0

/-- Closed form of the image tensor entry for channel `c` at pixel `i`. -/
def imageTensorAt (img msk : ℕ → ℕ) (c i : ℕ) : ℚ :=
  if 127 < msk (i * 4) then 0 else (img (i * 4 + c) : ℚ) / 255

theorem maskedTensorLoop_aux (img msk : ℕ → ℕ) (size : ℕ) :
    ∀ n, n ≤ size * size → ∀ acc : (ℕ → ℚ) × (ℕ → ℚ), ∀ i, i < n →
      (((List.range n).foldl (maskedTensorStep img msk size) acc).2 i
          = maskTensorAt msk i) ∧
        ∀ c, c < 3 →
          ((List.range n).foldl (maskedTensorStep img msk size) acc).1
              (i + c * (size * size)) = imageTensorAt img msk c i := by
  intro n
  induction n with
  | zero => intro _ acc i hi; exact absurd hi (Nat.not_lt_zero i)
  | succ n ih =>
    intro hn acc i hi
    have hss : n < size * size := by omega
    rw [List.range_succ, List.foldl_append, List.foldl_cons, List.foldl_nil]
    rcases Nat.lt_or_ge i n with hin | hin
    · -- `i` was written by an earlier iteration; iteration `n` misses it.
      obtain ⟨ihm, ihi⟩ := ih (by omega) acc i hin
      refine ⟨?_, ?_⟩
      · show (maskedTensorStep img msk size _ n).2 i = _
        simp only [maskedTensorStep, Function.update_apply]
        rw [if_neg (by omega : ¬ i = n)]
        exact ihm
      · intro c hc
        have h2 := ihi c hc
        show (maskedTensorStep img msk size _ n).1 (i + c * (size * size)) = _
        simp only [maskedTensorStep]
        by_cases hm : 127 < msk (n * 4)
        · rw [if_pos hm, if_pos (rfl : (1 : ℚ) = 1)]
          simp only [Function.update_apply]
          interval_cases c <;>
            (rw [if_neg (by omega), if_neg (by omega), if_neg (by omega)]; exact h2)
        · rw [if_neg hm, if_neg (by norm_num : (0 : ℚ) ≠ 1)]
          simp only [Function.update_apply]
          interval_cases c <;>
            (rw [if_neg (by omega), if_neg (by omega), if_neg (by omega)]; exact h2)
    · -- `i = n`: iteration `n` writes exactly the closed-form values.
      have hieq : i = n := by omega
      subst hieq
      refine ⟨?_, ?_⟩
      · show (maskedTensorStep img msk size _ i).2 i = _
        simp only [maskedTensorStep, Function.update_apply]
        simp [maskTensorAt]
      · intro c hc
        show (maskedTensorStep img msk size _ i).1 (i + c * (size * size)) = _
        simp only [maskedTensorStep]
        by_cases hm : 127 < msk (i * 4)
        · rw [if_pos hm, if_pos (rfl : (1 : ℚ) = 1)]
          simp only [Function.update_apply, imageTensorAt, if_pos hm]
          interval_cases c <;> split_ifs <;> first | rfl | (exfalso; omega) | norm_num
        · rw [if_neg hm, if_neg (by norm_num : (0 : ℚ) ≠ 1)]
          simp only [Function.update_apply, imageTensorAt, if_neg hm]
          interval_cases c <;> split_ifs <;> first | rfl | (exfalso; omega) | norm_num

theorem maskedTensorLoop_spec (img msk : ℕ → ℕ) (size : ℕ) (i : ℕ)
    (hi : i < size * size) :
    (maskedTensorLoop img msk size).2 i = maskTensorAt msk i ∧
      ∀ c, c < 3 →
        (maskedTensorLoop img msk size).1 (i + c * (size * size))
          = imageTensorAt img msk c i :=
  maskedTensorLoop_aux img msk size (size * size) le_rfl _ i hi

theorem createMaskedInputTensors_fst_data (img msk : ℕ → ℕ) (size : ℕ) :
    (createMaskedInputTensors img msk size).1.data = (maskedTensorLoop img msk size).1 :=
  rfl

theorem createMaskedInputTensors_snd_data (img msk : ℕ → ℕ) (size : ℕ) :
    (createMaskedInputTensors img msk size).2.data = (maskedTensorLoop img msk size).2 :=
  rfl

/-- C1: for every pixel `i` of the 512×512 rescaled grid, the mask tensor
entry is 1.0 exactly when the rescaled mask's red channel exceeds 127 (and
0.0 otherwise); where it is 1.0 all three image-tensor channels are
hard-zeroed, and where it is 0.0 each channel is the rescaled source byte
divided by 255, a value in [0,1].  (`hb` records that the bytes of a
`Uint8ClampedArray` are at most 255.) -/
theorem masked_input_tensors_correct (img msk : ℕ → ℕ)
    (hb : ∀ k, img k ≤ 255) (i : ℕ) (hi : i < 512 * 512) :
    ((createMaskedInputTensors img msk 512).2.data i = 1 ↔ 127 < msk (i * 4)) ∧
      ((createMaskedInputTensors img msk 512).2.data i = 1 ∨
        (createMaskedInputTensors img msk 512).2.data i = 0) ∧
      ((createMaskedInputTensors img msk 512).2.data i = 1 →
        ∀ c, c < 3 →
          (createMaskedInputTensors img msk 512).1.data (i + c * (512 * 512)) = 0) ∧
      ((createMaskedInputTensors img msk 512).2.data i = 0 →
        ∀ c, c < 3 →
          (createMaskedInputTensors img msk 512).1.data (i + c * (512 * 512))
              = (img (i * 4 + c) : ℚ) / 255 ∧
            0 ≤ (createMaskedInputTensors img msk 512).1.data (i + c * (512 * 512)) ∧
            (createMaskedInputTensors img msk 512).1.data (i + c * (512 * 512)) ≤ 1) := by
  obtain ⟨hmask, himg⟩ := maskedTensorLoop_spec img msk 512 i hi
  rw [createMaskedInputTensors_fst_data, createMaskedInputTensors_snd_data]
  have hm2 : (maskedTensorLoop img msk 512).2 i = maskTensorAt msk i := hmask
  have hi2 : ∀ c, c < 3 →
      (maskedTensorLoop img msk 512).1 (i + c * (512 * 512))
        = imageTensorAt img msk c i := himg
  by_cases hm : 127 < msk (i * 4)
  · refine ⟨⟨fun _ => hm, fun _ => ?_⟩, ?_, ?_, ?_⟩
    · rw [hm2, maskTensorAt, if_pos hm]
    · left; rw [hm2, maskTensorAt, if_pos hm]
    · intro _ c hc
      rw [hi2 c hc, imageTensorAt, if_pos hm]
    · intro h0
      rw [hm2, maskTensorAt, if_pos hm] at h0
      norm_num at h0
  · refine ⟨⟨fun h1 => ?_, fun h => absurd h hm⟩, ?_, ?_, ?_⟩
    · rw [hm2, maskTensorAt, if_neg hm] at h1
      norm_num at h1
    · right; rw [hm2, maskTensorAt, if_neg hm]
    · intro h1
      rw [hm2, maskTensorAt, if_neg hm] at h1
      norm_num at h1
    · intro _ c hc
      rw [hi2 c hc, imageTensorAt, if_neg hm]
      refine ⟨rfl, div_nonneg (Nat.cast_nonneg _) (by norm_num), ?_⟩
      rw [div_le_one (by norm_num)]
      exact_mod_cast hb (i * 4 + c)

/-- Witness for C1 at a concrete image (all bytes 100) and mask (all
bytes 200) and pixel 0. -/
theorem masked_input_tensors_correct_witness :
    (∀ k, (fun _ : ℕ => 100) k ≤ 255) ∧ 0 < 512 * 512 ∧
      (((createMaskedInputTensors (fun _ => 100) (fun _ => 200) 512).2.data 0 = 1 ↔
          127 < (fun _ : ℕ => 200) (0 * 4)) ∧
        ((createMaskedInputTensors (fun _ => 100) (fun _ => 200) 512).2.data 0 = 1 ∨
          (createMaskedInputTensors (fun _ => 100) (fun _ => 200) 512).2.data 0 = 0) ∧
        ((createMaskedInputTensors (fun _ => 100) (fun _ => 200) 512).2.data 0 = 1 →
          ∀ c, c < 3 →
            (createMaskedInputTensors (fun _ => 100) (fun _ => 200) 512).1.data
              (0 + c * (512 * 512)) = 0) ∧
        ((createMaskedInputTensors (fun _ => 100) (fun _ => 200) 512).2.data 0 = 0 →
          ∀ c, c < 3 →
            (createMaskedInputTensors (fun _ => 100) (fun _ => 200) 512).1.data
                (0 + c * (512 * 512)) = ((fun _ : ℕ => (100 : ℕ)) (0 * 4 + c) : ℚ) / 255 ∧
              0 ≤ (createMaskedInputTensors (fun _ => 100) (fun _ => 200) 512).1.data
                (0 + c * (512 * 512)) ∧
              (createMaskedInputTensors (fun _ => 100) (fun _ => 200) 512).1.data
                (0 + c * (512 * 512)) ≤ 1)) :=
  ⟨fun _ => by norm_num, by norm_num,
    masked_input_tensors_correct (fun _ => 100) (fun _ => 200)
      (fun _ => by norm_num) 0 (by norm_num)⟩

/-! ## Output tensor conversion (tensorToImage, tensorToImageData) -/

/-- JavaScript `Math.round`: round half toward +∞, i.e. `⌊x + 1/2⌋`. -/
def jsRound (x : ℚ) : ℤ := ⌊x + 1 / 2⌋

/-- `Math.max(0, Math.min(255, x))` on JS numbers. -/
def clampQ (x : ℚ) : ℚ := max 0 (min 255 x)

/-- `Math.max(0, Math.min(255, z))` on 8-bit integer results. -/
def clampZ (z : ℤ) : ℤ := max 0 (min 255 z)

/-- The per-channel conversion of the worker's `tensorToImageData` loop
(image-processing.ts lines 541-571): range detection uses the sampled
`minVal`/`maxVal`; a roughly-[-1,1] tensor is remapped via `(v+1)/2`, a
raw-8-bit tensor is divided by 255, otherwise the value is used as is;
the result is scaled by 255, clamped to [0,255] and rounded.  The float
literals -1.1, 1.1, -0.1, 255.5 are the rationals -11/10, 11/10, -1/10,
511/2. -/
def convertChannel (minVal maxVal v : ℚ) : ℤ :=
  let vr :=
    if -11 / 10 ≤ minVal ∧ maxVal ≤ 11 / 10 ∧ minVal < -1 / 10 then (v + 1) / 2
    else if 11 / 10 < maxVal ∧ maxVal ≤ 511 / 2 then v / 255
    else v
  jsRound (clampQ (vr * 255))

/-- The worker's `tensorToImageData` (image-processing.ts lines 518-584):
validate the dims (4 entries starting with 1, 3 — throwing
`Unexpected tensor format: …` otherwise), then convert each channel of
each of the 512×512 pixels with `convertChannel`, alpha fixed at 255.
The returned value is the converted 512×512 `ImageData`; the final
`drawImage` rescale of it to originalWidth×originalHeight is browser
rasterisation outside the embedding (the `ow`/`oh` parameters are kept). -/
def tensorToImageData (t : TensorQ) (ow oh : ℕ) (minVal maxVal : ℚ) :
    Except String ImageDataM :=
  if t.dims.length ≠ 4 ∨ t.dims.getD 0 0 ≠ 1 ∨ t.dims.getD 1 0 ≠ 3 then
    .error "Unexpected tensor format"
  else
    .ok { width := INPUT_SIZE, height := INPUT_SIZE,
          data := fun j =>
            if j % 4 = 3 then 255
            else convertChannel minVal maxVal
              (t.data (j / 4 + (j % 4) * (INPUT_SIZE * INPUT_SIZE))) }

/-- The main-thread `tensorToImage` (image-processing.ts lines 52-97): the
same dims validation, then plain `round(clamp(v*255))` per channel with no
range detection.  The original returns a PNG data URL of the rescaled
canvas; we model the 512×512 pixel content it draws. -/
def tensorToImage (t : TensorQ) (ow oh : ℕ) : Except String ImageDataM :=
  if t.dims.length ≠ 4 ∨ t.dims.getD 0 0 ≠ 1 ∨ t.dims.getD 1 0 ≠ 3 then
    .error "Unexpected tensor format"
  else
    .ok { width := INPUT_SIZE, height := INPUT_SIZE,
          data := fun j =>
            if j % 4 = 3 then 255
            else jsRound (clampQ
              (t.data (j / 4 + (j % 4) * (INPUT_SIZE * INPUT_SIZE)) * 255)) }

/-- `Math.min(...Array.from(data.slice(0, 10000)))` in `processImage`
(image-processing.ts line 618). -/
def sampledMin (d : ℕ → ℚ) : ℚ := ((List.range 10000).map d).foldl min (d 0)

/-- `Math.max(...Array.from(data.slice(0, 10000)))` in `processImage`
(image-processing.ts line 619). -/
def sampledMax (d : ℕ → ℚ) : ℚ := ((List.range 10000).map d).foldl max (d 0)

/-- Rounding then clamping equals clamping then rounding for the 8-bit
conversion: `⌊clamp(x)+1/2⌋ = clamp(⌊x+1/2⌋)`. -/
theorem jsRound_clampQ (x : ℚ) :
    jsRound (clampQ x) = clampZ (jsRound x) := by
  unfold jsRound clampQ clampZ
  rcases lt_or_le x 0 with hx | hx
  · have h1 : max 0 (min 255 x) = 0 := by
      rw [min_eq_right (by linarith : x ≤ 255), max_eq_left (by linarith : x ≤ 0)]
    rw [h1]
    have h2 : (⌊(0 : ℚ) + 1 / 2⌋ : ℤ) = 0 := by norm_num
    have h3 : ⌊x + 1 / 2⌋ ≤ ⌊(0 : ℚ) + 1 / 2⌋ := Int.floor_le_floor (by linarith)
    omega
  · rcases le_or_lt x 255 with hx2 | hx2
    · have h1 : max 0 (min 255 x) = x := by
        rw [min_eq_right hx2, max_eq_right hx]
      rw [h1]
      have h2 : (0 : ℤ) ≤ ⌊x + 1 / 2⌋ := Int.le_floor.mpr (by push_cast; linarith)
      have h3 : ⌊x + 1 / 2⌋ ≤ ⌊(255 : ℚ) + 1 / 2⌋ := Int.floor_le_floor (by linarith)
      have h4 : (⌊(255 : ℚ) + 1 / 2⌋ : ℤ) = 255 := by norm_num
      omega
    · have h1 : max 0 (min 255 x) = 255 := by
        rw [min_eq_left (by linarith : (255 : ℚ) ≤ x),
          max_eq_right (by norm_num : (0 : ℚ) ≤ (255 : ℚ))]
      rw [h1]
      have h2 : (⌊(255 : ℚ) + 1 / 2⌋ : ℤ) = 255 := by norm_num
      have h3 : ⌊(255 : ℚ) + 1 / 2⌋ ≤ ⌊x + 1 / 2⌋ := Int.floor_le_floor (by linarith)
      omega

theorem foldl_min_const (c : ℚ) : ∀ (l : List ℚ) (a : ℚ), a = c →
    (∀ x ∈ l, x = c) → l.foldl min a = c := by
  intro l
  induction l with
  | nil => intro a ha _; exact ha
  | cons y ys ih =>
    intro a ha hl
    rw [List.foldl_cons]
    refine ih _ ?_ fun x hx => hl x (List.mem_cons_of_mem y hx)
    rw [ha, hl y (List.mem_cons_self y ys), min_self]

theorem foldl_max_const (c : ℚ) : ∀ (l : List ℚ) (a : ℚ), a = c →
    (∀ x ∈ l, x = c) → l.foldl max a = c := by
  intro l
  induction l with
  | nil => intro a ha _; exact ha
  | cons y ys ih =>
    intro a ha hl
    rw [List.foldl_cons]
    refine ih _ ?_ fun x hx => hl x (List.mem_cons_of_mem y hx)
    rw [ha, hl y (List.mem_cons_self y ys), max_self]

theorem sampledMin_const (c : ℚ) : sampledMin (fun _ => c) = c := by
  apply foldl_min_const
  · rfl
  · intro x hx
    simp only [List.mem_map] at hx
    obtain ⟨_, _, hx⟩ := hx
    exact hx.symm

theorem sampledMax_const (c : ℚ) : sampledMax (fun _ => c) = c := by
  apply foldl_max_const
  · rfl
  · intro x hx
    simp only [List.mem_map] at hx
    obtain ⟨_, _, hx⟩ := hx
    exact hx.symm

/-- C2: with the sampled min/max of the output tensor's first 10000 values,
a roughly-[-1,1] tensor (min ≥ -1.1, min < -0.1, max ≤ 1.1) has every
channel remapped via (v+1)/2; else a raw-8-bit tensor (max > 1.1,
max ≤ 255.5) is divided by 255; otherwise values are used unchanged — and
in all cases the final 8-bit channel equals round(v·255) clamped
to [0,255]. -/
theorem output_range_detection (t : TensorQ) (ow oh : ℕ)
    (hdims : t.dims = [1, 3, 512, 512]) (i c : ℕ) (hi : i < 512 * 512) (hc : c < 3) :
    ∃ imgOut,
      tensorToImageData t ow oh (sampledMin t.data) (sampledMax t.data) = .ok imgOut ∧
        ((-11 / 10 ≤ sampledMin t.data ∧ sampledMax t.data ≤ 11 / 10 ∧
            sampledMin t.data < -1 / 10) →
          imgOut.data (i * 4 + c)
            = clampZ (jsRound ((t.data (i + c * (512 * 512)) + 1) / 2 * 255))) ∧
        (¬(-11 / 10 ≤ sampledMin t.data ∧ sampledMax t.data ≤ 11 / 10 ∧
            sampledMin t.data < -1 / 10) →
          (11 / 10 < sampledMax t.data ∧ sampledMax t.data ≤ 511 / 2) →
          imgOut.data (i * 4 + c)
            = clampZ (jsRound (t.data (i + c * (512 * 512)) / 255 * 255))) ∧
        (¬(-11 / 10 ≤ sampledMin t.data ∧ sampledMax t.data ≤ 11 / 10 ∧
            sampledMin t.data < -1 / 10) →
          ¬(11 / 10 < sampledMax t.data ∧ sampledMax t.data ≤ 511 / 2) →
          imgOut.data (i * 4 + c)
            = clampZ (jsRound (t.data (i + c * (512 * 512)) * 255))) := by
  have hval : ¬(t.dims.length ≠ 4 ∨ t.dims.getD 0 0 ≠ 1 ∨ t.dims.getD 1 0 ≠ 3) := by
    rw [hdims]; decide
  rw [tensorToImageData, if_neg hval]
  have hmod : (i * 4 + c) % 4 = c := by omega
  have hdiv : (i * 4 + c) / 4 = i := by omega
  refine ⟨_, rfl, ?_, ?_, ?_⟩
  · intro h1
    simp only [INPUT_SIZE, hmod, hdiv]
    rw [if_neg (show ¬ c = 3 by omega)]
    simp only [convertChannel]
    rw [if_pos h1, jsRound_clampQ]
  · intro h1 h2
    simp only [INPUT_SIZE, hmod, hdiv]
    rw [if_neg (show ¬ c = 3 by omega)]
    simp only [convertChannel]
    rw [if_neg h1, if_pos h2, jsRound_clampQ]
  · intro h1 h2
    simp only [INPUT_SIZE, hmod, hdiv]
    rw [if_neg (show ¬ c = 3 by omega)]
    simp only [convertChannel]
    rw [if_neg h1, if_neg h2, jsRound_clampQ]

/-- Witness for C2 at a constant −1 tensor of dims [1,3,512,512]: its
sampled range is [−1,−1], the [−1,1]-branch condition holds, and the
remapped byte value (v+1)/2·255 rounds and clamps to 0. -/
theorem output_range_detection_witness :
    ({ dims := [1, 3, 512, 512], data := fun _ => -1 } : TensorQ).dims
        = [1, 3, 512, 512] ∧
      0 < 512 * 512 ∧ 0 < 3 ∧
      sampledMin ({ dims := [1, 3, 512, 512], data := fun _ => -1 } : TensorQ).data
        = -1 ∧
      sampledMax ({ dims := [1, 3, 512, 512], data := fun _ => -1 } : TensorQ).data
        = -1 ∧
      (-11 / 10 ≤ (-1 : ℚ) ∧ (-1 : ℚ) ≤ 11 / 10 ∧ (-1 : ℚ) < -1 / 10) ∧
      clampZ (jsRound (((-1 : ℚ) + 1) / 2 * 255)) = 0 ∧
      (∃ imgOut,
        tensorToImageData { dims := [1, 3, 512, 512], data := fun _ => -1 } 640 480
            (sampledMin ({ dims := [1, 3, 512, 512], data := fun _ => -1 } : TensorQ).data)
            (sampledMax ({ dims := [1, 3, 512, 512], data := fun _ => -1 } : TensorQ).data)
          = .ok imgOut ∧
          ((-11 / 10 ≤ sampledMin ({ dims := [1, 3, 512, 512], data := fun _ => -1 } : TensorQ).data ∧
              sampledMax ({ dims := [1, 3, 512, 512], data := fun _ => -1 } : TensorQ).data ≤ 11 / 10 ∧
              sampledMin ({ dims := [1, 3, 512, 512], data := fun _ => -1 } : TensorQ).data < -1 / 10) →
            imgOut.data (0 * 4 + 0)
              = clampZ (jsRound ((({ dims := [1, 3, 512, 512], data := fun _ => -1 } : TensorQ).data
                  (0 + 0 * (512 * 512)) + 1) / 2 * 255))) ∧
          (¬(-11 / 10 ≤ sampledMin ({ dims := [1, 3, 512, 512], data := fun _ => -1 } : TensorQ).data ∧
              sampledMax ({ dims := [1, 3, 512, 512], data := fun _ => -1 } : TensorQ).data ≤ 11 / 10 ∧
              sampledMin ({ dims := [1, 3, 512, 512], data := fun _ => -1 } : TensorQ).data < -1 / 10) →
            (11 / 10 < sampledMax ({ dims := [1, 3, 512, 512], data := fun _ => -1 } : TensorQ).data ∧
              sampledMax ({ dims := [1, 3, 512, 512], data := fun _ => -1 } : TensorQ).data ≤ 511 / 2) →
            imgOut.data (0 * 4 + 0)
              = clampZ (jsRound (({ dims := [1, 3, 512, 512], data := fun _ => -1 } : TensorQ).data
                  (0 + 0 * (512 * 512)) / 255 * 255))) ∧
          (¬(-11 / 10 ≤ sampledMin ({ dims := [1, 3, 512, 512], data := fun _ => -1 } : TensorQ).data ∧
              sampledMax ({ dims := [1, 3, 512, 512], data := fun _ => -1 } : TensorQ).data ≤ 11 / 10 ∧
              sampledMin ({ dims := [1, 3, 512, 512], data := fun _ => -1 } : TensorQ).data < -1 / 10) →
            ¬(11 / 10 < sampledMax ({ dims := [1, 3, 512, 512], data := fun _ => -1 } : TensorQ).data ∧
              sampledMax ({ dims := [1, 3, 512, 512], data := fun _ => -1 } : TensorQ).data ≤ 511 / 2) →
            imgOut.data (0 * 4 + 0)
              = clampZ (jsRound (({ dims := [1, 3, 512, 512], data := fun _ => -1 } : TensorQ).data
                  (0 + 0 * (512 * 512)) * 255)))) :=
  ⟨rfl, by norm_num, by norm_num, sampledMin_const (-1), sampledMax_const (-1),
    by norm_num,
    by norm_num [clampZ, jsRound],
    output_range_detection { dims := [1, 3, 512, 512], data := fun _ => -1 } 640 480
      rfl 0 0 (by norm_num) (by norm_num)⟩

/-- C4 (amended): `tensorToImage` and the worker's `tensorToImageData`
throw `Unexpected tensor format` exactly when the dims fail the check
`length = 4 ∧ dims[0] = 1 ∧ dims[1] = 3`; the spatial dimensions are NOT
validated, so every tensor of shape [1,3,H,W] — H, W arbitrary, 512 or
not — passes and is converted. -/
theorem tensor_format_validation (t : TensorQ) (ow oh : ℕ) (mn mx : ℚ) :
    ((tensorToImage t ow oh = .error "Unexpected tensor format")
        ↔ ¬(t.dims.length = 4 ∧ t.dims.getD 0 0 = 1 ∧ t.dims.getD 1 0 = 3)) ∧
      ((tensorToImageData t ow oh mn mx = .error "Unexpected tensor format")
        ↔ ¬(t.dims.length = 4 ∧ t.dims.getD 0 0 = 1 ∧ t.dims.getD 1 0 = 3)) ∧
      (∀ H W, t.dims = [1, 3, H, W] →
        (∃ r, tensorToImage t ow oh = .ok r) ∧
          ∃ r, tensorToImageData t ow oh mn mx = .ok r) := by
  have hiff : (t.dims.length ≠ 4 ∨ t.dims.getD 0 0 ≠ 1 ∨ t.dims.getD 1 0 ≠ 3)
      ↔ ¬(t.dims.length = 4 ∧ t.dims.getD 0 0 = 1 ∧ t.dims.getD 1 0 = 3) := by
    tauto
  by_cases hv : t.dims.length ≠ 4 ∨ t.dims.getD 0 0 ≠ 1 ∨ t.dims.getD 1 0 ≠ 3
  · rw [tensorToImage, if_pos hv, tensorToImageData, if_pos hv]
    refine ⟨iff_of_true rfl (hiff.mp hv), iff_of_true rfl (hiff.mp hv), ?_⟩
    intro H W hHW
    rw [hHW] at hv
    simp at hv
  · rw [tensorToImage, if_neg hv, tensorToImageData, if_neg hv]
    refine ⟨iff_of_false (by simp) fun hn => hv (hiff.mpr hn),
      iff_of_false (by simp) fun hn => hv (hiff.mpr hn),
      fun H W hHW => ⟨⟨_, rfl⟩, ⟨_, rfl⟩⟩⟩

/-- Witness for C4's amended statement at a [1,3,256,256] tensor: both
converters accept it, the inner shape hypothesis discharged with `rfl`. -/
theorem tensor_format_validation_witness :
    (∃ r, tensorToImage { dims := [1, 3, 256, 256], data := fun _ => 0 } 8 8 = .ok r) ∧
      ∃ r, tensorToImageData { dims := [1, 3, 256, 256], data := fun _ => 0 } 8 8 0 1
        = .ok r :=
  (tensor_format_validation { dims := [1, 3, 256, 256], data := fun _ => 0 }
    8 8 0 1).2.2 256 256 rfl

/-- C4 counterexample: the claim "every tensor whose shape is not exactly
[1,3,512,512] fails, in particular any [1,3,H,W] with H or W ≠ 512" is
false — a [1,3,256,256] tensor passes validation in both converters and
is converted without an error. -/
theorem tensor_format_counterexample :
    ({ dims := [1, 3, 256, 256], data := fun _ => 0 } : TensorQ).dims
        ≠ [1, 3, 512, 512] ∧
      ¬(tensorToImage { dims := [1, 3, 256, 256], data := fun _ => 0 } 8 8
          = .error "Unexpected tensor format") ∧
      ¬(tensorToImageData { dims := [1, 3, 256, 256], data := fun _ => 0 } 8 8 0 1
          = .error "Unexpected tensor format") := by
  refine ⟨by decide, ?_, ?_⟩
  · intro h
    rw [tensorToImage, if_neg (by decide)] at h
    exact Except.noConfusion h
  · intro h
    rw [tensorToImageData, if_neg (by decide)] at h
    exact Except.noConfusion h

/-! ## Model loading singleton and the worker message handler
(src/lib/image-processing.ts lines 252-286, 424-455, 586-662)

The module-local mutable state is `session` and `loadingPromise`; sessions
and promises are identified by natural numbers.  The asynchronous pieces —
cache lookup, download, `InferenceSession.create`, `session.run` — are
oracle parameters: `resolve` maps a promise id to the eventual result of
the load work behind it, `infer` is the inference result. -/

structure WState where
  session : Option ℕ
  loading : Option ℕ
  deriving DecidableEq, Repr

inductive LoadEntry where
  | existingSession (sid : ℕ)
  | sharedPromise (pid : ℕ)
  | newPromise (pid : ℕ)
  deriving DecidableEq, Repr

/-- The synchronous prefix of `loadModel` (identical in the main-thread
loader, lines 252-261+283-285, and the worker, lines 424-428+454): return
the existing session if present, else the shared in-flight promise if
present, else install and return a fresh promise for a new attempt. -/
def loadModelEntry (st : WState) (fresh : ℕ) : LoadEntry × WState :=
  match st.session with
  | some sid => (.existingSession sid, st)
  | none =>
    match st.loading with
    | some p => (.sharedPromise p, st)
    | none => (.newPromise fresh, { st with loading := some fresh })

/-- Settlement of the load IIFE (lines 261-283 / 428-452): on success the
session is stored (the pending promise is left in place but becomes
unreachable because `session` is checked first); on failure
`loadingPromise` is cleared and the error rethrown to every awaiter. -/
def settleLoad (st : WState) (outcome : Except String ℕ) : WState :=
  match outcome with
  | .ok sid => { st with session := some sid }
  | .error _ => { st with loading := none }

/-- Awaiting `loadModel` end to end: the caller's received result together
with the state after settlement. -/
def runLoadRequest (st : WState) (fresh : ℕ) (resolve : ℕ → Except String ℕ) :
    Except String ℕ × WState :=
  match loadModelEntry st fresh with
  | (.existingSession sid, st') => (.ok sid, st')
  | (.sharedPromise p, st') => (resolve p, st')
  | (.newPromise p, st') => (resolve p, settleLoad st' (resolve p))

/-- Observable side effects of a process request. -/
inductive WEffect where
  | buildTensors
  | runInference
  deriving DecidableEq, Repr

/-- `processImage` (lines 586-623): throw `Model not loaded` when no
session exists; otherwise build the masked input tensors, run inference
(oracle `infer`), sample min/max of the first 10000 output values and
convert with `tensorToImageData`.  The effect list records which stages
were reached. -/
def processImage (st : WState) (img msk : ℕ → ℕ) (ow oh : ℕ)
    (infer : Except String TensorQ) :
    Except String ImageDataM × List WEffect :=
  match st.session with
  | none => (.error "Model not loaded", [])
  | some _ =>
    let _tensors := createMaskedInputTensors img msk INPUT_SIZE
    match infer with
    | .error e => (.error e, [.buildTensors, .runInference])
    | .ok out =>
      (tensorToImageData out ow oh (sampledMin out.data) (sampledMax out.data),
        [.buildTensors, .runInference])

/-- The two `WorkerMessage` variants (lines 311-313). -/
inductive WMessage where
  | load
  | process (img msk : ℕ → ℕ) (ow oh : ℕ)

/-- The `WorkerResponse` variants (lines 315-320). -/
inductive WResponse where
  | loadProgress (percent : ℕ)
  | loadComplete
  | loadError (e : String)
  | processComplete (r : ImageDataM)
  | processError (e : String)

/-- A response that answers a request (everything except progress events). -/
def WResponse.isTerminal : WResponse → Bool
  | .loadProgress _ => false
  | _ => true

/-- The worker's top-level `self.onmessage` handler (lines 625-662): each
branch awaits its operation inside try/catch and posts exactly one
completion or error response; `progress` lists the percentages the load
reported through the onProgress callback before finishing.  Returns the
posted responses in order, the new state, and the effects performed. -/
def handleMessage (st : WState) (msg : WMessage) (fresh : ℕ)
    (resolve : ℕ → Except String ℕ) (progress : List ℕ)
    (infer : Except String TensorQ) :
    List WResponse × WState × List WEffect :=
  match msg with
  | .load =>
    match runLoadRequest st fresh resolve with
    | (.ok _, st') =>
      (progress.map WResponse.loadProgress ++ [.loadComplete], st', [])
    | (.error e, st') =>
      (progress.map WResponse.loadProgress ++ [.loadError e], st', [])
  | .process img msk ow oh =>
    match processImage st img msk ow oh infer with
    | (.ok r, effs) => ([.processComplete r], st, effs)
    | (.error e, effs) => ([.processError e], st, effs)

theorem filter_isTerminal_progress (l : List ℕ) :
    (l.map WResponse.loadProgress).filter WResponse.isTerminal = [] := by
  induction l with
  | nil => rfl
  | cons a as ih => simpa [List.filter_cons, WResponse.isTerminal] using ih

/-- C3: every worker message produces exactly one terminal typed response:
a load request ends in load-complete or load-error, a process request in
process-complete or process-error; exceptions (the error outcomes of the
oracles) are caught and converted, so no request is unanswered. -/
theorem worker_request_response (st : WState) (fresh : ℕ)
    (resolve : ℕ → Except String ℕ) (progress : List ℕ)
    (infer : Except String TensorQ) (img msk : ℕ → ℕ) (ow oh : ℕ) :
    (((handleMessage st .load fresh resolve progress infer).1.filter
          WResponse.isTerminal).length = 1 ∧
        ((handleMessage st .load fresh resolve progress infer).1.getLast?
            = some .loadComplete ∨
          ∃ e, (handleMessage st .load fresh resolve progress infer).1.getLast?
            = some (.loadError e))) ∧
      ((handleMessage st (.process img msk ow oh) fresh resolve progress
            infer).1.filter WResponse.isTerminal).length = 1 ∧
        ((∃ r, (handleMessage st (.process img msk ow oh) fresh resolve progress
              infer).1.getLast? = some (.processComplete r)) ∨
          ∃ e, (handleMessage st (.process img msk ow oh) fresh resolve progress
              infer).1.getLast? = some (.processError e)) := by
  constructor
  · rcases hrun : runLoadRequest st fresh resolve with ⟨res, st'⟩
    rcases res with e | sid
    · simp only [handleMessage, hrun]
      constructor
      · rw [List.filter_append, filter_isTerminal_progress]
        rfl
      · right
        exact ⟨e, List.getLast?_concat _⟩
    · simp only [handleMessage, hrun]
      constructor
      · rw [List.filter_append, filter_isTerminal_progress]
        rfl
      · left
        exact List.getLast?_concat _
  · rcases hproc : processImage st img msk ow oh infer with ⟨res, effs⟩
    rcases res with e | r
    · simp only [handleMessage, hproc]
      exact ⟨rfl, .inr ⟨e, rfl⟩⟩
    · simp only [handleMessage, hproc]
      exact ⟨rfl, .inl ⟨r, rfl⟩⟩

/-- C9: a process request received while `session` is still null is
answered with exactly `process-error "Model not loaded"`, and neither
tensor construction nor inference is attempted. -/
theorem process_without_session (st : WState) (fresh : ℕ)
    (resolve : ℕ → Except String ℕ) (progress : List ℕ)
    (infer : Except String TensorQ) (img msk : ℕ → ℕ) (ow oh : ℕ)
    (hs : st.session = none) :
    handleMessage st (.process img msk ow oh) fresh resolve progress infer
      = ([.processError "Model not loaded"], st, []) := by
  simp only [handleMessage, processImage, hs]

/-- Witness for C9 at the worker's start state. -/
theorem process_without_session_witness :
    ({ session := none, loading := none } : WState).session = none ∧
      handleMessage { session := none, loading := none }
          (.process (fun _ => 0) (fun _ => 0) 4 4) 0 (fun _ => .error "e") []
          (.error "e")
        = ([.processError "Model not loaded"],
            { session := none, loading := none }, []) :=
  ⟨rfl, process_without_session { session := none, loading := none } 0
    (fun _ => .error "e") [] (.error "e") (fun _ => 0) (fun _ => 0) 4 4 rfl⟩

/-- C5: the `loadModel` singleton (the same structure in the main-thread
loader and the worker) is single-flight: an existing session is returned
directly; while a load is in flight every caller gets the same pending
promise and no new attempt starts (the state is unchanged); a failure
clears the pending promise, so the next call starts a fresh attempt, and
the failure is the result every awaiter of that attempt receives. -/
theorem load_model_single_flight (st : WState) (fresh fresh₁ fresh₂ : ℕ)
    (p sid : ℕ) (e : String) (resolve : ℕ → Except String ℕ) :
    (st.session = some sid →
      loadModelEntry st fresh = (.existingSession sid, st)) ∧
      (st.session = none → st.loading = some p →
        (loadModelEntry st fresh₁).1 = .sharedPromise p ∧
          (loadModelEntry st fresh₂).1 = .sharedPromise p ∧
          (loadModelEntry st fresh₁).2 = st) ∧
      (settleLoad st (.error e)).loading = none ∧
      (st.session = none →
        loadModelEntry (settleLoad st (.error e)) fresh
          = (.newPromise fresh, { session := none, loading := some fresh })) ∧
      (st.session = none → st.loading = none → resolve fresh = .error e →
        runLoadRequest st fresh resolve
          = (.error e, { session := none, loading := none })) := by
  obtain ⟨sess, load⟩ := st
  refine ⟨?_, ?_, ?_, ?_, ?_⟩
  · intro hs
    simp only at hs
    subst hs
    rfl
  · intro hs hl
    simp only at hs hl
    subst hs; subst hl
    exact ⟨rfl, rfl, rfl⟩
  · rfl
  · intro hs
    simp only at hs
    subst hs
    rfl
  · intro hs hl hr
    simp only at hs hl
    subst hs; subst hl
    simp only [runLoadRequest, loadModelEntry, settleLoad, hr]

/-- Witness for C5 at concrete states: a held session is returned as is;
two callers during an in-flight load share promise 3; a failed settlement
clears the promise; the next call after a failure starts promise 9; and a
failing attempt reports its error to the caller. -/
theorem load_model_single_flight_witness :
    (loadModelEntry { session := some 7, loading := none } 9
        = (.existingSession 7, { session := some 7, loading := none })) ∧
      ((loadModelEntry { session := none, loading := some 3 } 8).1
          = .sharedPromise 3 ∧
        (loadModelEntry { session := none, loading := some 3 } 9).1
          = .sharedPromise 3 ∧
        (loadModelEntry { session := none, loading := some 3 } 8).2
          = { session := none, loading := some 3 }) ∧
      (settleLoad { session := none, loading := some 3 } (.error "boom")).loading
        = none ∧
      (loadModelEntry (settleLoad { session := none, loading := some 3 }
            (.error "boom")) 9
        = (.newPromise 9, { session := none, loading := some 9 })) ∧
      runLoadRequest { session := none, loading := none } 9
          (fun _ => .error "boom")
        = (.error "boom", { session := none, loading := none }) :=
  ⟨(load_model_single_flight { session := some 7, loading := none }
      9 0 0 0 7 "boom" (fun _ => .error "boom")).1 rfl,
    (load_model_single_flight { session := none, loading := some 3 }
      0 8 9 3 0 "boom" (fun _ => .error "boom")).2.1 rfl rfl,
    (load_model_single_flight { session := none, loading := some 3 }
      0 0 0 0 0 "boom" (fun _ => .error "boom")).2.2.1,
    (load_model_single_flight { session := none, loading := some 3 }
      9 0 0 0 0 "boom" (fun _ => .error "boom")).2.2.2.1 rfl,
    (load_model_single_flight { session := none, loading := none }
      9 0 0 0 0 "boom" (fun _ => .error "boom")).2.2.2.2 rfl rfl rfl⟩

/-! ## Brush stroke interpolation (hero.tsx lines 669-682, 780-798)

`interpolatePoints` computes `distance = Math.sqrt(dx² + dy²)` and
`steps = Math.max(Math.floor(distance / (size / 4)), 1)`, then emits the
`steps + 1` points at parameters `i / steps` along the segment.  The
square root of a rational is not rational, so the distance `d` is an
explicit parameter; theorems carry the defining side condition
`0 ≤ d ∧ d² = sqDist p1 p2`. -/

structure Point where
  x : ℚ
  y : ℚ
  deriving DecidableEq, Repr

/-- Squared Euclidean distance. -/
def sqDist (p q : Point) : ℚ := (q.x - p.x) ^ 2 + (q.y - p.y) ^ 2

/-- `Math.max(Math.floor(distance / (size / 4)), 1)`. -/
def stepsFor (d size : ℚ) : ℤ := max ⌊d / (size / 4)⌋ 1

/-- `interpolatePoints` (hero.tsx lines 669-682). -/
def interpolatePoints (p1 p2 : Point) (size d : ℚ) : List Point :=
  (List.range ((stepsFor d size).toNat + 1)).map fun (i : ℕ) =>
    { x := p1.x + (p2.x - p1.x) * ((i : ℚ) / ((stepsFor d size : ℤ) : ℚ)),
      y := p1.y + (p2.y - p1.y) * ((i : ℚ) / ((stepsFor d size : ℤ) : ℚ)) }

theorem interpolatePoints_getD (p1 p2 : Point) (size d : ℚ) (i : ℕ)
    (hi : i < (stepsFor d size).toNat + 1) :
    (interpolatePoints p1 p2 size d).getD i { x := 0, y := 0 }
      = { x := p1.x + (p2.x - p1.x) * ((i : ℚ) / ((stepsFor d size : ℤ) : ℚ)),
          y := p1.y + (p2.y - p1.y) * ((i : ℚ) / ((stepsFor d size : ℤ) : ℚ)) } := by
  unfold interpolatePoints
  rw [List.getD_eq_getElem?_getD, List.getElem?_map, List.getElem?_range hi]
  rfl

theorem stepsFor_pos (d size : ℚ) : 0 < stepsFor d size :=
  lt_of_lt_of_le one_pos (le_max_right _ _)

/-- The parameter spacing bound behind the amended C7: the per-step
distance `d / steps` is strictly below `2 · (size/4) = size/2`. -/
theorem dist_div_steps_lt (d size : ℚ) (hsize : 0 < size) (hd : 0 ≤ d) :
    d / ((stepsFor d size : ℤ) : ℚ) < size / 2 := by
  have hq : 0 < size / 4 := by linarith
  have hfloor : d / (size / 4) < ⌊d / (size / 4)⌋ + 1 := Int.lt_floor_add_one _
  rcases le_or_lt ⌊d / (size / 4)⌋ 1 with hk | hk
  · have hS : stepsFor d size = 1 := by
      unfold stepsFor
      exact max_eq_right hk
    rw [hS]
    have h2 : d / (size / 4) < 2 := by
      have : (⌊d / (size / 4)⌋ : ℚ) + 1 ≤ 2 := by exact_mod_cast by omega
      linarith
    have : d < 2 * (size / 4) := by
      have := (div_lt_iff hq).mp h2
      linarith
    push_cast
    rw [div_lt_iff (by norm_num : (0:ℚ) < 1)]
    linarith
  · have hS : stepsFor d size = ⌊d / (size / 4)⌋ := by
      unfold stepsFor
      exact max_eq_left (by omega)
    rw [hS]
    set k : ℤ := ⌊d / (size / 4)⌋ with hkdef
    have hk1 : (1 : ℚ) < (k : ℚ) := by exact_mod_cast hk
    have hkpos : (0 : ℚ) < (k : ℚ) := by linarith
    rw [div_lt_iff hkpos]
    have h1 : d < ((k : ℚ) + 1) * (size / 4) := by
      have := (div_lt_iff hq).mp hfloor
      linarith [(div_lt_iff hq).mp hfloor]
    have h2 : ((k : ℚ) + 1) * (size / 4) ≤ (size / 2) * (k : ℚ) := by
      nlinarith
    linarith

/-- C7 (amended): consecutive interpolated sub-points are strictly closer
than half the brush size (twice the claimed size/4 bound): their squared
distance is below (size/2)². -/
theorem interpolation_spacing (p1 p2 : Point) (size d : ℚ)
    (hsize : 0 < size) (hd : 0 ≤ d) (hdist : d ^ 2 = sqDist p1 p2)
    (i : ℕ) (hi : i + 1 < (interpolatePoints p1 p2 size d).length) :
    sqDist ((interpolatePoints p1 p2 size d).getD i { x := 0, y := 0 })
        ((interpolatePoints p1 p2 size d).getD (i + 1) { x := 0, y := 0 })
      < (size / 2) ^ 2 := by
  have hlen : (interpolatePoints p1 p2 size d).length
      = (stepsFor d size).toNat + 1 := by
    unfold interpolatePoints
    rw [List.length_map, List.length_range]
  rw [hlen] at hi
  have hSpos := stepsFor_pos d size
  have hSQ : ((stepsFor d size : ℤ) : ℚ) ≠ 0 := by
    have : (stepsFor d size : ℤ) ≠ 0 := by omega
    exact_mod_cast this
  rw [interpolatePoints_getD p1 p2 size d i (by omega),
    interpolatePoints_getD p1 p2 size d (i + 1) hi]
  set S : ℚ := ((stepsFor d size : ℤ) : ℚ) with hSdef
  have hkey : sqDist
      { x := p1.x + (p2.x - p1.x) * ((i : ℚ) / S),
        y := p1.y + (p2.y - p1.y) * ((i : ℚ) / S) }
      { x := p1.x + (p2.x - p1.x) * (((i : ℚ) + 1) / S),
        y := p1.y + (p2.y - p1.y) * (((i : ℚ) + 1) / S) }
      = sqDist p1 p2 / S ^ 2 := by
    unfold sqDist
    field_simp
    ring
  push_cast
  rw [hkey, ← hdist]
  have hbound : d / S < size / 2 := dist_div_steps_lt d size hsize hd
  have hdivnonneg : 0 ≤ d / S := by
    apply div_nonneg hd
    rw [hSdef]
    exact_mod_cast le_of_lt hSpos
  calc d ^ 2 / S ^ 2 = (d / S) ^ 2 := by rw [div_pow]
    _ < (size / 2) ^ 2 := by
        apply pow_lt_pow_left hbound hdivnonneg
        norm_num

/-- Witness for the amended C7 at the counterexample input: brush size
100, segment (0,0)–(49,0), distance 49. -/
theorem interpolation_spacing_witness :
    (0 : ℚ) < 100 ∧ (0 : ℚ) ≤ 49 ∧
      (49 : ℚ) ^ 2 = sqDist { x := 0, y := 0 } { x := 49, y := 0 } ∧
      0 + 1 < (interpolatePoints { x := 0, y := 0 } { x := 49, y := 0 } 100 49).length ∧
      sqDist
          ((interpolatePoints { x := 0, y := 0 } { x := 49, y := 0 } 100 49).getD 0
            { x := 0, y := 0 })
          ((interpolatePoints { x := 0, y := 0 } { x := 49, y := 0 } 100 49).getD 1
            { x := 0, y := 0 })
        < (100 / 2) ^ 2 := by
  have hsteps : stepsFor 49 100 = 1 := by norm_num [stepsFor, max_self]
  have hlen : (interpolatePoints { x := 0, y := 0 } { x := 49, y := 0 } 100 49).length
      = 2 := by
    simp [interpolatePoints, hsteps]
  exact ⟨by norm_num, by norm_num, by norm_num [sqDist], by rw [hlen]; norm_num,
    interpolation_spacing { x := 0, y := 0 } { x := 49, y := 0 } 100 49
      (by norm_num) (by norm_num) (by norm_num [sqDist]) 0 (by rw [hlen]; norm_num)⟩

/-- C7 counterexample: with brush size 100 (within the valid 5–100 range)
and a pointer segment of length 49, the code takes
`steps = max(floor(49/25), 1) = 1`, so the two emitted points are 49 apart
— farther than the claimed bound size/4 = 25 (squared: 2401 > 625). -/
theorem interpolation_spacing_counterexample :
    ((5 : ℚ) ≤ 100 ∧ (100 : ℚ) ≤ 100) ∧
      (0 : ℚ) ≤ 49 ∧
      (49 : ℚ) ^ 2 = sqDist { x := 0, y := 0 } { x := 49, y := 0 } ∧
      stepsFor 49 100 = 1 ∧
      (interpolatePoints { x := 0, y := 0 } { x := 49, y := 0 } 100 49).length = 2 ∧
      ¬ sqDist
          ((interpolatePoints { x := 0, y := 0 } { x := 49, y := 0 } 100 49).getD 0
            { x := 0, y := 0 })
          ((interpolatePoints { x := 0, y := 0 } { x := 49, y := 0 } 100 49).getD 1
            { x := 0, y := 0 })
        ≤ (100 / 4) ^ 2 := by
  have hsteps : stepsFor 49 100 = 1 := by norm_num [stepsFor, max_self]
  have hlen : (interpolatePoints { x := 0, y := 0 } { x := 49, y := 0 } 100 49).length
      = 2 := by
    simp [interpolatePoints, hsteps]
  refine ⟨by norm_num, by norm_num, by norm_num [sqDist], hsteps, hlen, ?_⟩
  rw [interpolatePoints_getD _ _ _ _ 0 (by rw [hsteps]; norm_num),
    interpolatePoints_getD _ _ _ _ 1 (by rw [hsteps]; norm_num), hsteps]
  norm_num [sqDist]

/-! ## SEO head-tag generators (src/lib/seo.ts)

`ScriptTag.children` holds `JSON.stringify` of a JSON-LD object; we model
the object itself (a `Json` value), since stringify/parse round-trips it
and `JSON.stringify` drops keys whose value is `undefined` — which the
optional splices below reproduce.  Browser date parsing (`new Date` plus
the NaN check of `getTime`) is the oracle `parseToIso`. -/

structure MetaTag where
  charSet : Option String := none
  name : Option String := none
  content : Option String := none
  property : Option String := none
  title : Option String := none
  deriving DecidableEq, Repr

/-- Link tags; the optional `as`/`type`/`media` fields of the source are
never set by these generators and are omitted. -/
structure LinkTag where
  rel : String
  href : String
  sizes : Option String := none
  deriving DecidableEq, Repr

inductive Json where
  | str (s : String)
  | arr (xs : List Json)
  | obj (fields : List (String × Json))

def Json.lookup : Json → String → Option Json
  | .obj fields, k => (fields.find? (fun f => f.1 == k)).map (fun f => f.2)
  | _, _ => none

structure ScriptTag where
  type : Option String := none
  children : Option Json := none

structure HeadTags where
  meta : List MetaTag
  links : List LinkTag
  scripts : List ScriptTag

def SITE_URL : String := "https://littlegoat.com.br"
def SITE_NAME : String := "Watermark Remover"
def DEFAULT_TITLE : String :=
  "Watermark Remover | Free AI-Powered Image Watermark Removal Tool"
def DEFAULT_DESCRIPTION : String :=
  "Remove watermarks from images instantly using AI. 100% free, unlimited removals, private browser-based processing. No sign-up required."
def DEFAULT_KEYWORDS : List String :=
  ["watermark remover", "remove watermark", "watermark removal tool",
   "AI watermark remover", "remove watermark from image",
   "online watermark remover", "free watermark remover",
   "watermark removal software", "image watermark removal",
   "photo watermark remover", "privacy watermark remover",
   "browser watermark remover"]
def AUTHOR : String := "Little Goat"

/-- `absoluteUrl` (seo.ts lines 67-73).  Every call site passes a
root-relative path ("/", "/og-image.png", "/favicon-32x32.png",
"/blog/<slug>"), for which `new URL(path, SITE_URL).toString()` is
`SITE_URL ++ path`. -/
def absoluteUrl (path : String := "/") : String :=
  if path = "" then SITE_URL
  else if path.startsWith "http://" || path.startsWith "https://" then path
  else SITE_URL ++ path

def DEFAULT_IMAGE : String := absoluteUrl "/og-image.png"
def DEFAULT_LOGO : String := absoluteUrl "/favicon-32x32.png"

/-- `defaultJsonLd` (seo.ts lines 90-121). -/
def defaultJsonLd : Json :=
  .obj [("@context", .str "https://schema.org"),
    ("@type", .str "SoftwareApplication"),
    ("name", .str SITE_NAME),
    ("image", .str DEFAULT_IMAGE),
    ("url", .str (absoluteUrl "/")),
    ("description", .str DEFAULT_DESCRIPTION),
    ("applicationCategory", .str "ImageEditingApplication"),
    ("operatingSystem", .str "Web Browser"),
    ("offers", .obj [("@type", .str "Offer"),
      ("name", .str "Watermark Remover - Free Access"),
      ("description", .str "AI-powered watermark removal tool. 100% free with unlimited removals. No sign-up required."),
      ("price", .str "0"),
      ("priceCurrency", .str "USD")]),
    ("aggregateRating", .obj [("@type", .str "AggregateRating"),
      ("ratingValue", .str "5"),
      ("reviewCount", .str "50")]),
    ("featureList", .arr (["AI-powered watermark removal",
      "Browser-based processing", "100% private",
      "Manual and auto detection", "High quality results",
      "Fast processing", "Completely free",
      "Unlimited removals"].map .str))]

/-- `getRootSeo` (seo.ts lines 123-168). -/
def getRootSeo : HeadTags :=
  let canonical := absoluteUrl "/"
  { meta := [
      { charSet := some "utf-8" },
      { name := some "viewport", content := some "width=device-width, initial-scale=1" },
      { title := some DEFAULT_TITLE },
      { name := some "description", content := some DEFAULT_DESCRIPTION },
      { name := some "keywords", content := some (String.intercalate ", " DEFAULT_KEYWORDS) },
      { name := some "author", content := some AUTHOR },
      { name := some "robots", content := some "index,follow" },
      { property := some "og:type", content := some "website" },
      { property := some "og:site_name", content := some SITE_NAME },
      { property := some "og:url", content := some canonical },
      { property := some "og:title", content := some DEFAULT_TITLE },
      { property := some "og:description", content := some DEFAULT_DESCRIPTION },
      { property := some "og:image", content := some DEFAULT_IMAGE },
      { name := some "twitter:card", content := some "summary_large_image" },
      { property := some "twitter:url", content := some canonical },
      { property := some "twitter:title", content := some DEFAULT_TITLE },
      { property := some "twitter:description", content := some DEFAULT_DESCRIPTION },
      { property := some "twitter:image", content := some DEFAULT_IMAGE }],
    links := [
      { rel := "canonical", href := canonical },
      { rel := "icon", href := "/favicon.ico" },
      { rel := "icon", href := "/favicon-96x96.png", sizes := some "96x96" },
      { rel := "apple-touch-icon", href := "/apple-touch-icon.png" },
      { rel := "manifest", href := "/site.webmanifest" }],
    scripts := [{ type := some "application/ld+json", children := some defaultJsonLd }] }

structure BlogSeoPayload where
  slug : String
  title : String
  excerpt : Option String := none
  tags : Option (List String) := none
  date : Option String := none

/-- `getIsoDate` (seo.ts lines 170-175): undefined input gives undefined;
otherwise browser date parsing (`parseToIso` returns none exactly when
`new Date(input).getTime()` is NaN, else the `toISOString` text). -/
def getIsoDate (parseToIso : String → Option String) (input : Option String) :
    Option String :=
  match input with
  | none => none
  | some str => parseToIso str

/-- `getBlogPostSeo` (seo.ts lines 177-256).  The
`article:published_time`/`article:modified_time` meta pushes and the
`datePublished`/`dateModified`/`keywords` JSON-LD keys appear only when
their values are defined. -/
def getBlogPostSeo (parseToIso : String → Option String)
    (post : BlogSeoPayload) : HeadTags :=
  let canonical := absoluteUrl ("/blog/" ++ post.slug)
  let description :=
    match post.excerpt with
    | none => DEFAULT_DESCRIPTION
    | some e => if e.trim = "" then DEFAULT_DESCRIPTION else e.trim
  let keywords :=
    match post.tags with
    | some ts =>
      if 0 < ts.length then String.intercalate ", " ts
      else String.intercalate ", " DEFAULT_KEYWORDS
    | none => String.intercalate ", " DEFAULT_KEYWORDS
  let isoDate := getIsoDate parseToIso post.date
  let metaBase : List MetaTag := [
    { title := some (post.title ++ " | Little Goat Blog") },
    { name := some "description", content := some description },
    { name := some "author", content := some AUTHOR },
    { name := some "keywords", content := some keywords },
    { property := some "og:type", content := some "article" },
    { property := some "og:site_name", content := some SITE_NAME },
    { property := some "og:url", content := some canonical },
    { property := some "og:title", content := some post.title },
    { property := some "og:description", content := some description },
    { property := some "og:image", content := some DEFAULT_IMAGE },
    { property := some "twitter:card", content := some "summary_large_image" },
    { property := some "twitter:url", content := some canonical },
    { property := some "twitter:title", content := some post.title },
    { property := some "twitter:description", content := some description },
    { property := some "twitter:image", content := some DEFAULT_IMAGE }]
  let metaDates : List MetaTag :=
    match isoDate with
    | some d => [{ property := some "article:published_time", content := some d },
                 { property := some "article:modified_time", content := some d }]
    | none => []
  let metaTags : List MetaTag :=
    ((post.tags.getD []).filter
        (fun t => decide (t ≠ "") && decide (0 < t.trim.length))).map
      fun t => { property := some "article:tag", content := some t }
  let blogJsonLd : Json := .obj (
    [("@context", Json.str "https://schema.org"),
     ("@type", Json.str "BlogPosting"),
     ("mainEntityOfPage", Json.obj [("@type", Json.str "WebPage"),
       ("@id", Json.str canonical)]),
     ("headline", Json.str post.title),
     ("description", Json.str description),
     ("image", Json.str DEFAULT_IMAGE)]
    ++ (match isoDate with
        | some d => [("datePublished", Json.str d), ("dateModified", Json.str d)]
        | none => [])
    ++ [("author", Json.obj [("@type", Json.str "Person"),
          ("name", Json.str AUTHOR)]),
        ("publisher", Json.obj [("@type", Json.str "Organization"),
          ("name", Json.str SITE_NAME),
          ("logo", Json.obj [("@type", Json.str "ImageObject"),
            ("url", Json.str DEFAULT_LOGO)])])]
    ++ (match post.tags with
        | some ts =>
          if 0 < ts.length then [("keywords", Json.str (String.intercalate ", " ts))]
          else []
        | none => []))
  { meta := metaBase ++ metaDates ++ metaTags,
    links := [{ rel := "canonical", href := canonical }],
    scripts := [{ type := some "application/ld+json", children := some blogJsonLd }] }

theorem Json.lookup_eq_none (fields : List (String × Json)) (k : String)
    (h : ∀ kv ∈ fields, kv.1 ≠ k) : (Json.obj fields).lookup k = none := by
  simp only [Json.lookup]
  rw [List.find?_eq_none.mpr]
  · rfl
  · intro kv hkv
    simpa using h kv hkv

/-- C8: `getRootSeo` contains a canonical link whose href is the site base
URL (the root path resolved against it: "https://littlegoat.com.br/") and
exactly one JSON-LD script, whose parsed content has "@type" equal to
"SoftwareApplication"; and for every post whose date string does not parse
to a valid timestamp, `getBlogPostSeo` omits the article:published_time
and article:modified_time meta tags and leaves datePublished/dateModified
out of the emitted JSON-LD. -/
theorem seo_bundles (parseToIso : String → Option String) (post : BlogSeoPayload)
    (hdate : getIsoDate parseToIso post.date = none) :
    getRootSeo.links.filter (fun l => l.rel == "canonical")
        = [{ rel := "canonical", href := SITE_URL ++ "/" }] ∧
      (getRootSeo.scripts.filter
        (fun sc => sc.type == some "application/ld+json")).length = 1 ∧
      (∃ j, getRootSeo.scripts
          = [{ type := some "application/ld+json", children := some j }] ∧
        j.lookup "@type" = some (.str "SoftwareApplication")) ∧
      (∀ tag ∈ (getBlogPostSeo parseToIso post).meta,
        tag.property ≠ some "article:published_time" ∧
          tag.property ≠ some "article:modified_time") ∧
      (∃ j, (getBlogPostSeo parseToIso post).scripts
          = [{ type := some "application/ld+json", children := some j }] ∧
        j.lookup "datePublished" = none ∧ j.lookup "dateModified" = none) := by
  refine ⟨by rfl, by rfl, ⟨defaultJsonLd, rfl, by rfl⟩, ?_, ?_⟩
  · simp only [getBlogPostSeo, hdate]
    simp [List.forall_mem_append, List.forall_mem_cons, List.forall_mem_map]
    intro a x _ _ _ h
    subst h
    simp
  · refine ⟨_, rfl, ?_, ?_⟩ <;>
    · apply Json.lookup_eq_none
      rw [hdate]
      rcases htags : post.tags with _ | ts
      · simp [htags, List.forall_mem_append, List.forall_mem_cons]
      · simp only [htags]
        split_ifs <;>
          simp [List.forall_mem_append, List.forall_mem_cons]

/-- Witness for C8 at a post whose date string "not-a-date" does not
parse (the date oracle returns none). -/
theorem seo_bundles_witness :
    getIsoDate (fun _ => none)
        ({ slug := "p", title := "T", date := some "not-a-date" } : BlogSeoPayload).date
      = none ∧
      (getRootSeo.links.filter (fun l => l.rel == "canonical")
          = [{ rel := "canonical", href := SITE_URL ++ "/" }] ∧
        (getRootSeo.scripts.filter
          (fun sc => sc.type == some "application/ld+json")).length = 1 ∧
        (∃ j, getRootSeo.scripts
            = [{ type := some "application/ld+json", children := some j }] ∧
          j.lookup "@type" = some (.str "SoftwareApplication")) ∧
        (∀ tag ∈ (getBlogPostSeo (fun _ => none)
              { slug := "p", title := "T", date := some "not-a-date" }).meta,
          tag.property ≠ some "article:published_time" ∧
            tag.property ≠ some "article:modified_time") ∧
        (∃ j, (getBlogPostSeo (fun _ => none)
              { slug := "p", title := "T", date := some "not-a-date" }).scripts
            = [{ type := some "application/ld+json", children := some j }] ∧
          j.lookup "datePublished" = none ∧ j.lookup "dateModified" = none)) :=
  ⟨rfl, seo_bundles (fun _ => none)
    { slug := "p", title := "T", date := some "not-a-date" } rfl⟩

end Removemark
